import Mathlib

/-!
Verification of the data-dictionary editor (`src/app.py`).

The program keeps a full dataset as a pandas `DataFrame` (equivalently a
list of records), derives a Tables projection and a Columns projection from
it (`make_tables_view`, `make_columns_view`), and on Save folds the edited
projection rows back into the full dataset by composite-key match inside
the master callback `main_controller`.  A second callback `change_page`
computes pagination.

The embedding below models a DataFrame as an ordered list of column names
together with an ordered list of rows, each row an ordered list of cell
values.  A cell value is either a string or null (pandas `None`/`NaN`;
both compare unequal to every string, and `Series.get` of a null value
behaves like a missing key, exactly as the Python code relies on).
-/

namespace DataDict

/-- A cell value: a string, or null (pandas `None` / `NaN`). -/
inductive Val where
  | str : String → Val
  | null : Val
deriving DecidableEq, Repr

/-- One dataset row: the cell values, ordered like the column list. -/
abbrev Row := List Val

/-- A pandas DataFrame: ordered column names plus ordered rows. -/
structure DataFrame where
  cols : List String
  rows : List Row
deriving DecidableEq, Repr

/-- Well-formedness of a DataFrame as pandas maintains it: distinct column
names, and every row has one cell per column. -/
def DataFrame.WF (df : DataFrame) : Prop :=
  df.cols.Nodup ∧ ∀ r ∈ df.rows, r.length = df.cols.length

instance (df : DataFrame) : Decidable df.WF := by
  unfold DataFrame.WF; infer_instance

/-- Index of a column name in a column list (`df.columns.get_loc`). -/
def colIdx : List String → String → Option Nat
  | [], _ => none
  | c :: cs, x => if c = x then some 0 else (colIdx cs x).map (· + 1)

/-- The cell of row `r` at column `c`, given the column list. `none` when
the column is absent from the schema. -/
def cellR (cols : List String) (r : Row) (c : String) : Option Val :=
  (colIdx cols c).bind fun i => r[i]?

/-- Pandas elementwise equality of a column against a string literal:
true only when the cell holds exactly that string (null/NaN compares
false, as in pandas). -/
def cellEqS (cols : List String) (r : Row) (c : String) (s : String) : Bool :=
  cellR cols r c == some (Val.str s)

/-- Python `row.get(c)` followed by an `is None` test: yields the string
when the field is present and non-null, `none` otherwise. -/
def pyGetStr (cols : List String) (r : Row) (c : String) : Option String :=
  match cellR cols r c with
  | some (Val.str s) => some s
  | _ => none

/-- Python `row[c]`: the raw stored value (possibly null). Only used with
`c` present in `cols`; the `null` default is never reached on well-formed
data. -/
def rawGet (cols : List String) (r : Row) (c : String) : Val :=
  (cellR cols r c).getD Val.null

/-- Python truthiness of an optional string (`None` and `""` are falsy). -/
def truthyOpt : Option String → Bool
  | none => false
  | some s => !(s == "")

/-- Boolean-mask row filtering (`df[mask]`): keeps columns, filters rows. -/
def filterRows (df : DataFrame) (p : Row → Bool) : DataFrame :=
  ⟨df.cols, df.rows.filter p⟩

/-- Pandas column assignment `df[c] = v` broadcast over all rows: replaces
the column in place when present, else appends it at the end. -/
def setColAll (df : DataFrame) (c : String) (v : Val) : DataFrame :=
  match colIdx df.cols c with
  | some i => ⟨df.cols, df.rows.map (fun r => r.set i v)⟩
  | none => ⟨df.cols ++ [c], df.rows.map (fun r => r ++ [v])⟩

/-- One entry of the Dash `columns` schema: display name, field id,
editability flag and presentation kind. -/
structure ColumnSpec where
  name : String
  id : String
  editable : Bool
  presentation : String
deriving DecidableEq, Repr

/-- The conditional schema entry pattern of the source: emit the spec only
when the field is present in the (projected) column set. -/
def specIf (cs : List String) (field disp : String) (ed : Bool) : List ColumnSpec :=
  if field ∈ cs then [⟨disp, field, ed, "input"⟩] else []

/-- Schema built by `make_tables_view` from a column set: Table,
Description (sole editable), Schema, then the unconditional action
marker. -/
def tablesSchema (cs : List String) : List ColumnSpec :=
  specIf cs "name" "Table" false ++
    specIf cs "description" "Description" true ++
      specIf cs "parent" "Schema" false ++
        [⟨"", "__open__", false, "markdown"⟩]

/-- Schema built by `make_columns_view` from a column set: Column,
Description (sole editable), Table, Type. -/
def columnsSchema (cs : List String) : List ColumnSpec :=
  specIf cs "name" "Column" false ++
    specIf cs "description" "Description" true ++
      specIf cs "parent" "Table" false ++
        specIf cs "type" "Type" false

/-- The function `make_tables_view` of `src/app.py`: keep rows with `type == "table"`
(every row when no `type` column exists), attach the `__open__` action
marker with value `"Open"`, and build the schema from the fields present. -/
def make_tables_view (df : DataFrame) : DataFrame × List ColumnSpec :=
  let tablesDf :=
    if "type" ∈ df.cols then filterRows df (fun r => cellEqS df.cols r "type" "table")
    else df
  let tablesDf := setColAll tablesDf "__open__" (Val.str "Open")
  (tablesDf, tablesSchema tablesDf.cols)

/-- The function `make_columns_view` of `src/app.py`: keep rows with
`parent == tableName` and (when a `type` column exists) `type != "table"`.
Returns `none` exactly when `df["parent"]` would raise a `KeyError`,
i.e. when the `parent` column is absent. -/
def make_columns_view (df : DataFrame) (tableName : String) :
    Option (DataFrame × List ColumnSpec) :=
  if "parent" ∈ df.cols then
    let colsDf :=
      if "type" ∈ df.cols then
        filterRows df
          (fun r => cellEqS df.cols r "parent" tableName && !cellEqS df.cols r "type" "table")
      else
        filterRows df (fun r => cellEqS df.cols r "parent" tableName)
    some (colsDf, columnsSchema colsDf.cols)
  else none

/-!
## Merge engine (Save branch of `main_controller`, lines 660–717)
-/

/-- Model of `view_df.drop(columns=helper_cols)` where `helper_cols` are the view
columns absent from the full dataset's schema: keep, in view order, only
the columns present in `fullCols` (and the matching cells of each row). -/
def dropHelpers (fullCols : List String) (view : DataFrame) : DataFrame :=
  { cols := view.cols.filter (fun c => decide (c ∈ fullCols)),
    rows := view.rows.map (fun r =>
      ((view.cols.zip r).filter (fun p => decide (p.1 ∈ fullCols))).map Prod.snd) }

/-- Write value `v` into cell index `i` of every row whose mask entry is
`true` (the row-set half of `full_df.loc[mask, col] = v`). -/
def applyMask (i : Nat) (v : Val) : List Row → List Bool → List Row
  | [], _ => []
  | rs, [] => rs
  | r :: rs, b :: bs => (if b then r.set i v else r) :: applyMask i v rs bs

/-- Model of `full_df.loc[mask, c] = v`: set column `c` to `v` on the rows selected
by `mask`.  In the merge the column is always present in `full_df`, so the
missing-column case is unreachable and left as the identity. -/
def setColWhere (df : DataFrame) (mask : List Bool) (c : String) (v : Val) : DataFrame :=
  match colIdx df.cols c with
  | some i => ⟨df.cols, applyMask i v df.rows mask⟩
  | none => df

/-- The inner body shared by both merge loops: compute the boolean mask
once from the current full dataset, then copy every view column's value of
the edited row onto all masked rows. -/
def applyViewRowWith (pred : Row → Bool) (viewCols : List String) (r : Row)
    (full : DataFrame) : DataFrame :=
  let mask := full.rows.map pred
  viewCols.foldl (fun acc c => setColWhere acc mask c (rawGet viewCols r c)) full

/-- Tables-mode match predicate: `type == "table" & name == n & parent == p`
when a `type` column exists, else `name == n & parent == p`. -/
def tablesPred (fullCols : List String) (n p : String) (fr : Row) : Bool :=
  if "type" ∈ fullCols then
    cellEqS fullCols fr "type" "table" && cellEqS fullCols fr "name" n &&
      cellEqS fullCols fr "parent" p
  else
    cellEqS fullCols fr "name" n && cellEqS fullCols fr "parent" p

/-- One iteration of the Tables-mode merge loop: skip the edited row when
`name` or `parent` is missing/None, otherwise overwrite all key-matched
full rows with the edited row's values. -/
def mergeTablesRow (full : DataFrame) (viewCols : List String) (r : Row) : DataFrame :=
  match pyGetStr viewCols r "name", pyGetStr viewCols r "parent" with
  | some n, some p => applyViewRowWith (tablesPred full.cols n p) viewCols r full
  | _, _ => full

/-- Columns-mode match predicate: scoped by `(name, parent, type)` when the
edited row's `type` is present (non-null) and the full dataset has a `type`
column, else by `(name, parent)`. -/
def columnsPred (fullCols : List String) (n p : String) (typ : Option String)
    (fr : Row) : Bool :=
  match typ with
  | some t =>
    if "type" ∈ fullCols then
      cellEqS fullCols fr "name" n && cellEqS fullCols fr "parent" p &&
        cellEqS fullCols fr "type" t
    else
      cellEqS fullCols fr "name" n && cellEqS fullCols fr "parent" p
  | none => cellEqS fullCols fr "name" n && cellEqS fullCols fr "parent" p

/-- One iteration of the Columns-mode merge loop. -/
def mergeColumnsRow (full : DataFrame) (viewCols : List String) (r : Row) : DataFrame :=
  let typ := if "type" ∈ viewCols then pyGetStr viewCols r "type" else none
  match pyGetStr viewCols r "name", pyGetStr viewCols r "parent" with
  | some n, some p => applyViewRowWith (columnsPred full.cols n p typ) viewCols r full
  | _, _ => full

/-- The whole merge step of the Save branch: drop helper columns from the
edited rows, then dispatch on the view mode.  Tables mode and Columns mode
(with a truthy selected table) run their per-row scoped update loops; every
other combination falls back to treating the edited rows as the entire new
full dataset (`full_df = view_df`). -/
def mergeSave (full : DataFrame) (viewRaw : DataFrame) (viewMode : Option String)
    (selectedTable : Option String) : DataFrame :=
  let view := dropHelpers full.cols viewRaw
  if viewMode == some "tables" then
    view.rows.foldl (fun acc r => mergeTablesRow acc view.cols r) full
  else if viewMode == some "columns" && truthyOpt selectedTable then
    view.rows.foldl (fun acc r => mergeColumnsRow acc view.cols r) full
  else
    view

/-!
## The master callback's emitted tuple
-/

/-- A Dash callback output slot: either `no_update` or a new value. -/
inductive Upd (α : Type) where
  | noUpdate : Upd α
  | set : α → Upd α
deriving DecidableEq, Repr

/-- The 9-tuple emitted by `main_controller`: displayed rows, schema,
label, load status, dataset name store, full dataset store, view-mode
store, selected-table store, save status. -/
structure Outputs where
  data : Upd DataFrame
  columns : Upd (List ColumnSpec)
  label : Upd String
  loadStatus : Upd String
  tableName : Upd (Option String)
  fullData : Upd (Option DataFrame)
  viewMode : Upd String
  selectedTable : Upd (Option String)
  saveStatus : Upd String
deriving DecidableEq, Repr

/-- The all-`no_update` tuple the callback starts from. -/
def noChange : Outputs :=
  ⟨.noUpdate, .noUpdate, .noUpdate, .noUpdate, .noUpdate, .noUpdate, .noUpdate,
    .noUpdate, .noUpdate⟩

/-- The empty records list pushed to the table on a failed/refused load. -/
def emptyDF : DataFrame := ⟨[], []⟩

/-!
## Load branch (`main_controller`, lines 538–602)
-/

/-- Python `str.strip()`: remove leading and trailing whitespace. -/
def pyStrip (s : String) : String :=
  ⟨((s.data.dropWhile Char.isWhitespace).reverse.dropWhile Char.isWhitespace).reverse⟩

/-- Model of `table_name.rsplit(".", 1)[0]`: drop the final dot-separated segment
(the whole string when it contains no dot). -/
def strip_last_segment (s : String) : String :=
  let parts := s.splitOn "."
  if parts.length ≤ 1 then s else String.intercalate "." parts.dropLast

/-- The load attempt once the presence check has passed and the inputs have
been trimmed: compose the dataset name, call the storage read, and emit
either the error tuple or the loaded Tables view.  `now` stands for the
wall-clock timestamp string. -/
def loadAttempt (c s now : String) (read : String → Except String DataFrame) : Outputs :=
  let name := c ++ "." ++ s ++ ".data_dict"
  match read name with
  | .error e =>
    { data := .set emptyDF, columns := .set [], label := .set ("Table: " ++ name),
      loadStatus := .set ("Error loading " ++ name ++ ": " ++ e),
      tableName := .set none, fullData := .set none, viewMode := .set "tables",
      selectedTable := .set none, saveStatus := .noUpdate }
  | .ok df =>
    let tv := make_tables_view df
    { data := .set tv.1, columns := .set tv.2,
      label := .set ("Tables in data dictionary: " ++ c ++ "." ++ s),
      loadStatus := .set ("Loaded " ++ name ++ " (" ++ toString df.rows.length ++
        " rows) at " ++ now ++ "."),
      tableName := .set (some name), fullData := .set (some df),
      viewMode := .set "tables", selectedTable := .set none, saveStatus := .noUpdate }

/-- The Load branch of `main_controller`: the raw (untrimmed) catalog and
schema values are tested for truthiness; only afterwards are they trimmed
and composed into `catalog.schema.data_dict`. -/
def loadBranch (catalog schema : Option String) (now : String)
    (read : String → Except String DataFrame) : Outputs :=
  if !truthyOpt catalog || !truthyOpt schema then
    { data := .set emptyDF, columns := .set [], label := .set "Table: (none loaded)",
      loadStatus := .set "Please enter both catalog and schema.",
      tableName := .set none, fullData := .set none, viewMode := .set "tables",
      selectedTable := .set none, saveStatus := .noUpdate }
  else
    loadAttempt (pyStrip (catalog.getD "")) (pyStrip (schema.getD "")) now read

/-!
## Drill-down branch (`main_controller`, lines 607–630)
-/

/-- The `active_cell` dictionary of the data table, reduced to the two keys
the code reads. -/
structure ActiveCell where
  row : Option Nat
  column_id : Option String
deriving DecidableEq, Repr

/-- Resolution of the clicked table name: requires a row index, a non-empty
displayed row list, and the index in range; then reads the row's `name`
field (None when missing or null). -/
def resolveOpenName (currentViewRows : DataFrame) (rowIdx : Option Nat) : Option String :=
  match rowIdx with
  | some i =>
    if !currentViewRows.rows.isEmpty && decide (i < currentViewRows.rows.length) then
      match currentViewRows.rows[i]? with
      | some r => pyGetStr currentViewRows.cols r "name"
      | none => none
    else none
  | none => none

/-- The drill-down branch of `main_controller` (trigger `db-table`).
`none` models the uncaught `KeyError` raised when the Columns view is built
over a dataset lacking a `parent` column; every guard failure yields the
all-`no_update` tuple. -/
def openRowBranch (viewMode : Option String) (activeCell : Option ActiveCell)
    (fullDataRaw : Option DataFrame) (currentViewRows : DataFrame) : Option Outputs :=
  match activeCell, fullDataRaw with
  | some ac, some fullDf =>
    if viewMode == some "tables" && ac.column_id == some "__open__" then
      match resolveOpenName currentViewRows ac.row with
      | none => some noChange
      | some n =>
        if n == "" then some noChange
        else
          match make_columns_view fullDf n with
          | some cv =>
            some { noChange with
              data := .set cv.1, columns := .set cv.2,
              label := .set ("Columns for table: " ++ n),
              viewMode := .set "columns", selectedTable := .set (some n) }
          | none => none
    else some noChange
  | _, _ => some noChange

/-!
## Save branch (`main_controller`, lines 654–741)
-/

/-- The Save branch of `main_controller`.  The storage write is the
injected `write`; a `.error` result models the raised `StorageError`, in
which case only the save status is emitted (the local output variables for
rows, schema, label, full dataset, mode and selection were not yet
assigned when the exception fired).  After a successful write the full
dataset store is updated and the active projection rebuilt; rebuilding the
Columns view over a dataset without a `parent` column raises a `KeyError`
caught by the same handler, with the store already updated. -/
def saveBranch (saveClicks : Nat) (tableName : Option String)
    (fullDataRaw : Option DataFrame) (currentViewRows : DataFrame)
    (viewMode selectedTable : Option String)
    (write : String → DataFrame → Except String Unit) : Outputs :=
  if !truthyOpt tableName then
    { noChange with saveStatus := .set "No table loaded. Please load a table before saving." }
  else
    match fullDataRaw with
    | none =>
      { noChange with
        saveStatus := .set "No in-memory copy of the data dictionary. Try reloading it." }
    | some fullDf =>
      let tn := tableName.getD ""
      let merged := mergeSave fullDf currentViewRows viewMode selectedTable
      match write tn merged with
      | .error e => { noChange with saveStatus := .set ("Error saving changes: " ++ e) }
      | .ok _ =>
        let savedMsg := "Saved changes to " ++ tn ++ " (click #" ++ toString saveClicks ++ ")."
        if viewMode == some "tables" then
          let tv := make_tables_view merged
          { noChange with
            data := .set tv.1, columns := .set tv.2,
            label := .set ("Tables in data dictionary: " ++ strip_last_segment tn),
            fullData := .set (some merged), saveStatus := .set savedMsg }
        else if viewMode == some "columns" && truthyOpt selectedTable then
          match make_columns_view merged (selectedTable.getD "") with
          | some cv =>
            { noChange with
              data := .set cv.1, columns := .set cv.2,
              label := .set ("Columns for table: " ++ selectedTable.getD ""),
              fullData := .set (some merged), saveStatus := .set savedMsg }
          | none =>
            { noChange with
              fullData := .set (some merged),
              saveStatus := .set ("Error saving changes: " ++ "'parent'") }
        else
          { noChange with fullData := .set (some merged), saveStatus := .set savedMsg }

/-!
## Pagination callback `change_page` (lines 769–791)
-/

/-- The page count `max(1, ceil(total_rows / page_size))`, with the source's guard that a
falsy (zero) page size yields one page. -/
def totalPagesOf (rows : Option (List Row)) (pageSize : Nat) : Nat :=
  if pageSize = 0 then 1
  else max 1 (((rows.getD []).length + pageSize - 1) / pageSize)

/-- The `change_page` callback: `rows` is the table's `data` property
(possibly never set), `trigger` the fired input's id.  Returns the new
`page_current` and the indicator label. -/
def change_page (trigger : String) (rows : Option (List Row)) (currentPage : Int)
    (pageSize : Nat) : Int × String :=
  let totalPages := totalPagesOf rows pageSize
  let newPage : Int :=
    if trigger == "db-table" then 0
    else if trigger == "next-page" then min (currentPage + 1) ((totalPages : Int) - 1)
    else if trigger == "prev-page" then max (currentPage - 1) 0
    else currentPage
  (newPage, "Page " ++ toString (newPage + 1) ++ " of " ++ toString totalPages)

/-!
## Basic lemmas about the embedding's primitives
-/

theorem colIdx_getElem? : ∀ (cs : List String) (x : String) (i : Nat),
    colIdx cs x = some i → cs[i]? = some x := by
  intro cs
  induction cs with
  | nil => intro x i h; simp [colIdx] at h
  | cons c cs ih =>
    intro x i h
    by_cases hc : c = x
    · simp [colIdx, hc] at h
      subst h hc
      simp
    · simp [colIdx, hc] at h
      obtain ⟨j, hj, hji⟩ := h
      subst hji
      simpa using ih x j hj

theorem colIdx_ne {cs : List String} {c₁ c₂ : String} {i j : Nat}
    (h₁ : colIdx cs c₁ = some i) (h₂ : colIdx cs c₂ = some j) (hne : c₁ ≠ c₂) : i ≠ j := by
  intro hij
  subst hij
  have g₁ := colIdx_getElem? cs c₁ i h₁
  have g₂ := colIdx_getElem? cs c₂ i h₂
  rw [g₁] at g₂
  exact hne (by injection g₂)

theorem colIdx_isSome_of_mem : ∀ (cs : List String) (x : String), x ∈ cs →
    ∃ i, colIdx cs x = some i := by
  intro cs
  induction cs with
  | nil => intro x h; simp at h
  | cons c cs ih =>
    intro x h
    by_cases hc : c = x
    · exact ⟨0, by simp [colIdx, hc]⟩
    · have hx : x ∈ cs := by
        rcases List.mem_cons.mp h with h' | h'
        · exact absurd h'.symm hc
        · exact h'
      obtain ⟨i, hi⟩ := ih x hx
      exact ⟨i + 1, by simp [colIdx, hc, hi]⟩

theorem list_set_self : ∀ (r : Row) (k : Nat) (v : Val), r[k]? = some v → r.set k v = r := by
  intro r
  induction r with
  | nil => intro k v h; simp at h
  | cons a r ih =>
    intro k v h
    cases k with
    | zero => simp at h; simp [h]
    | succ k => simp at h; simp [ih k v h]

theorem applyMask_length (k : Nat) (v : Val) :
    ∀ (rs : List Row) (ms : List Bool), (applyMask k v rs ms).length = rs.length := by
  intro rs
  induction rs with
  | nil => intro ms; cases ms <;> simp [applyMask]
  | cons r rs ih =>
    intro ms
    cases ms with
    | nil => simp [applyMask]
    | cons m ms => simp [applyMask, ih]

theorem applyMask_getElem? (k : Nat) (v : Val) :
    ∀ (rs : List Row) (ms : List Bool) (i : Nat),
      (applyMask k v rs ms)[i]? =
        if ms[i]? = some true then (rs[i]?).map (fun r => r.set k v)
        else rs[i]? := by
  intro rs
  induction rs with
  | nil => intro ms i; cases ms <;> simp [applyMask]
  | cons r rs ih =>
    intro ms i
    cases ms with
    | nil => simp [applyMask]
    | cons m ms =>
      cases i with
      | zero => cases m <;> simp [applyMask]
      | succ i => simpa [applyMask] using ih ms i

theorem setColWhere_cols (df : DataFrame) (mask : List Bool) (c : String) (v : Val) :
    (setColWhere df mask c v).cols = df.cols := by
  unfold setColWhere
  cases colIdx df.cols c <;> rfl

theorem setColWhere_length (df : DataFrame) (mask : List Bool) (c : String) (v : Val) :
    (setColWhere df mask c v).rows.length = df.rows.length := by
  unfold setColWhere
  cases colIdx df.cols c <;> simp [applyMask_length]

theorem setColWhere_getElem?_of_not (df : DataFrame) (mask : List Bool) (c : String)
    (v : Val) (i : Nat) (h : mask[i]? ≠ some true) :
    (setColWhere df mask c v).rows[i]? = df.rows[i]? := by
  unfold setColWhere
  cases colIdx df.cols c with
  | none => rfl
  | some k => simp [applyMask_getElem?, h]

theorem foldl_setColWhere_cols (mask : List Bool) (g : String → Val) :
    ∀ (cs : List String) (acc : DataFrame),
      (cs.foldl (fun a c => setColWhere a mask c (g c)) acc).cols = acc.cols := by
  intro cs
  induction cs with
  | nil => intro acc; rfl
  | cons c cs ih => intro acc; rw [List.foldl_cons, ih, setColWhere_cols]

theorem foldl_setColWhere_length (mask : List Bool) (g : String → Val) :
    ∀ (cs : List String) (acc : DataFrame),
      (cs.foldl (fun a c => setColWhere a mask c (g c)) acc).rows.length =
        acc.rows.length := by
  intro cs
  induction cs with
  | nil => intro acc; rfl
  | cons c cs ih => intro acc; rw [List.foldl_cons, ih, setColWhere_length]

theorem foldl_setColWhere_getElem?_of_not (mask : List Bool) (g : String → Val) (i : Nat)
    (h : mask[i]? ≠ some true) :
    ∀ (cs : List String) (acc : DataFrame),
      (cs.foldl (fun a c => setColWhere a mask c (g c)) acc).rows[i]? =
        acc.rows[i]? := by
  intro cs
  induction cs with
  | nil => intro acc; rfl
  | cons c cs ih =>
    intro acc
    rw [List.foldl_cons, ih, setColWhere_getElem?_of_not _ _ _ _ _ h]

theorem foldl_fixed {α β : Type} (f : α → β → α) (a : α) :
    ∀ (l : List β), (∀ b ∈ l, f a b = a) → l.foldl f a = a := by
  intro l
  induction l with
  | nil => intro _; rfl
  | cons b l ih =>
    intro h
    rw [List.foldl_cons, h b (by simp)]
    exact ih (fun x hx => h x (by simp [hx]))

theorem applyViewRowWith_cols (pred : Row → Bool) (viewCols : List String) (r : Row)
    (full : DataFrame) : (applyViewRowWith pred viewCols r full).cols = full.cols :=
  foldl_setColWhere_cols _ _ _ _

theorem applyViewRowWith_length (pred : Row → Bool) (viewCols : List String) (r : Row)
    (full : DataFrame) :
    (applyViewRowWith pred viewCols r full).rows.length = full.rows.length :=
  foldl_setColWhere_length _ _ _ _

/-- A row whose mask predicate is false is left untouched by the inner
column-copy loop. -/
theorem applyViewRowWith_getElem?_of_not (pred : Row → Bool) (viewCols : List String)
    (r : Row) (full : DataFrame) (i : Nat) (row : Row) (hrow : full.rows[i]? = some row)
    (hpred : pred row = false) :
    (applyViewRowWith pred viewCols r full).rows[i]? = some row := by
  unfold applyViewRowWith
  rw [foldl_setColWhere_getElem?_of_not, hrow]
  rw [List.getElem?_map, hrow]
  simp [hpred]

theorem mergeColumnsRow_cols (full : DataFrame) (viewCols : List String) (r : Row) :
    (mergeColumnsRow full viewCols r).cols = full.cols := by
  unfold mergeColumnsRow
  cases pyGetStr viewCols r "name" <;> cases pyGetStr viewCols r "parent" <;>
    simp [applyViewRowWith_cols]

theorem mergeColumnsRow_length (full : DataFrame) (viewCols : List String) (r : Row) :
    (mergeColumnsRow full viewCols r).rows.length = full.rows.length := by
  unfold mergeColumnsRow
  cases pyGetStr viewCols r "name" <;> cases pyGetStr viewCols r "parent" <;>
    simp [applyViewRowWith_length]

theorem mergeTablesRow_cols (full : DataFrame) (viewCols : List String) (r : Row) :
    (mergeTablesRow full viewCols r).cols = full.cols := by
  unfold mergeTablesRow
  cases pyGetStr viewCols r "name" <;> cases pyGetStr viewCols r "parent" <;>
    simp [applyViewRowWith_cols]

theorem mergeTablesRow_length (full : DataFrame) (viewCols : List String) (r : Row) :
    (mergeTablesRow full viewCols r).rows.length = full.rows.length := by
  unfold mergeTablesRow
  cases pyGetStr viewCols r "name" <;> cases pyGetStr viewCols r "parent" <;>
    simp [applyViewRowWith_length]

theorem foldl_mergeTablesRow_cols (viewCols : List String) :
    ∀ (rs : List Row) (acc : DataFrame),
      (rs.foldl (fun a r => mergeTablesRow a viewCols r) acc).cols = acc.cols := by
  intro rs
  induction rs with
  | nil => intro acc; rfl
  | cons r rs ih => intro acc; rw [List.foldl_cons, ih, mergeTablesRow_cols]

theorem foldl_mergeTablesRow_length (viewCols : List String) :
    ∀ (rs : List Row) (acc : DataFrame),
      (rs.foldl (fun a r => mergeTablesRow a viewCols r) acc).rows.length =
        acc.rows.length := by
  intro rs
  induction rs with
  | nil => intro acc; rfl
  | cons r rs ih => intro acc; rw [List.foldl_cons, ih, mergeTablesRow_length]

theorem foldl_mergeColumnsRow_cols (viewCols : List String) :
    ∀ (rs : List Row) (acc : DataFrame),
      (rs.foldl (fun a r => mergeColumnsRow a viewCols r) acc).cols = acc.cols := by
  intro rs
  induction rs with
  | nil => intro acc; rfl
  | cons r rs ih => intro acc; rw [List.foldl_cons, ih, mergeColumnsRow_cols]

theorem foldl_mergeColumnsRow_length (viewCols : List String) :
    ∀ (rs : List Row) (acc : DataFrame),
      (rs.foldl (fun a r => mergeColumnsRow a viewCols r) acc).rows.length =
        acc.rows.length := by
  intro rs
  induction rs with
  | nil => intro acc; rfl
  | cons r rs ih => intro acc; rw [List.foldl_cons, ih, mergeColumnsRow_length]

/-- Dropping helper columns is the identity when every view column already
belongs to the full dataset's schema and rows are well-formed. -/
theorem dropHelpers_self (fullCols : List String) (view : DataFrame)
    (hw : ∀ r ∈ view.rows, r.length = view.cols.length)
    (hsub : ∀ c ∈ view.cols, c ∈ fullCols) :
    dropHelpers fullCols view = view := by
  unfold dropHelpers
  have hcols : view.cols.filter (fun c => decide (c ∈ fullCols)) = view.cols :=
    List.filter_eq_self.mpr (fun c hc => by simpa using hsub c hc)
  have hrows : view.rows.map (fun r =>
      ((view.cols.zip r).filter (fun p => decide (p.1 ∈ fullCols))).map Prod.snd) =
        view.rows := by
    conv_rhs => rw [(List.map_id view.rows).symm]
    apply List.map_congr_left
    intro r hr
    have hfil : (view.cols.zip r).filter (fun p => decide (p.1 ∈ fullCols)) =
        view.cols.zip r := by
      apply List.filter_eq_self.mpr
      intro p hp
      have := (List.of_mem_zip hp).1
      simpa using hsub p.1 this
    rw [hfil]
    exact List.map_snd_zip _ _ (le_of_eq (hw r hr))
  rw [hcols, hrows]

theorem colIdx_eq_none (cs : List String) (x : String) (h : x ∉ cs) : colIdx cs x = none := by
  cases hc : colIdx cs x with
  | none => rfl
  | some i => exact absurd (List.getElem?_mem (colIdx_getElem? cs x i hc)) h

theorem mem_specIf {cs : List String} {f d : String} {e : Bool} {spec : ColumnSpec}
    (h : spec ∈ specIf cs f d e) : spec = ⟨d, f, e, "input"⟩ := by
  unfold specIf at h
  split at h
  · simpa using h
  · simp at h

theorem mem_tablesSchema_editable {cs : List String} {spec : ColumnSpec}
    (h : spec ∈ tablesSchema cs) : spec.editable = true ↔ spec.id = "description" := by
  unfold tablesSchema at h
  rcases List.mem_append.mp h with h | h
  · rcases List.mem_append.mp h with h | h
    · rcases List.mem_append.mp h with h | h
      · rw [mem_specIf h]; decide
      · rw [mem_specIf h]; decide
    · rw [mem_specIf h]; decide
  · simp at h
    rw [h]; decide

theorem mem_columnsSchema_editable {cs : List String} {spec : ColumnSpec}
    (h : spec ∈ columnsSchema cs) : spec.editable = true ↔ spec.id = "description" := by
  unfold columnsSchema at h
  rcases List.mem_append.mp h with h | h
  · rcases List.mem_append.mp h with h | h
    · rcases List.mem_append.mp h with h | h
      · rw [mem_specIf h]; decide
      · rw [mem_specIf h]; decide
    · rw [mem_specIf h]; decide
  · rw [mem_specIf h]; decide

/-- The Tables-view schema does not depend on the appended action marker
column: it is determined by the full dataset's field set. -/
theorem tablesSchema_append_open (cs : List String) :
    tablesSchema (cs ++ ["__open__"]) = tablesSchema cs := by
  simp [tablesSchema, specIf]

/-- The schema half of `make_tables_view` is a function of the full
dataset's column set alone. -/
theorem make_tables_view_schema (df : DataFrame) :
    (make_tables_view df).2 = tablesSchema df.cols := by
  unfold make_tables_view setColAll
  by_cases htc : "type" ∈ df.cols <;>
    simp only [htc, if_true, if_false, filterRows] <;>
    cases colIdx df.cols "__open__" <;>
    simp [tablesSchema_append_open]

/-- Shape of a successful `make_columns_view`: the schema comes from the
full dataset's column set and the rows are a filtration of the full rows. -/
theorem make_columns_view_shape {df : DataFrame} {p : String} {cdf : DataFrame}
    {sch : List ColumnSpec} (h : make_columns_view df p = some (cdf, sch)) :
    sch = columnsSchema df.cols ∧ cdf.cols = df.cols ∧
      cdf.rows.length ≤ df.rows.length := by
  unfold make_columns_view at h
  by_cases hp : "parent" ∈ df.cols
  · rw [if_pos hp] at h
    by_cases htc : "type" ∈ df.cols <;>
      simp only [htc, if_true, if_false, filterRows, Option.some.injEq, Prod.mk.injEq] at h <;>
      obtain ⟨h1, h2⟩ := h <;> subst h1 h2 <;>
      exact ⟨rfl, rfl, List.length_filter_le _ _⟩
  · rw [if_neg hp] at h
    exact absurd h (by simp)

/-- C7 (claim): for `rowCount ≥ 0`, `pageSize ≥ 1`, a current page within
`[0, totalPages-1]` and any of the three recognized triggers, `change_page`
returns a page within `[0, totalPages-1]`, where
`totalPages = max(1, ceil(rowCount / pageSize)) ≥ 1`; the row-set-replaced
trigger resets the page to 0. -/
theorem change_page_bounds (rows : Option (List Row)) (cp : Int) (ps : Nat)
    (trigger : String) (hps : 1 ≤ ps)
    (ht : trigger = "db-table" ∨ trigger = "next-page" ∨ trigger = "prev-page")
    (hcp0 : 0 ≤ cp) (hcp1 : cp ≤ (totalPagesOf rows ps : Int) - 1) :
    1 ≤ totalPagesOf rows ps ∧
    totalPagesOf rows ps = max 1 (((rows.getD []).length + ps - 1) / ps) ∧
    0 ≤ (change_page trigger rows cp ps).1 ∧
    (change_page trigger rows cp ps).1 ≤ (totalPagesOf rows ps : Int) - 1 ∧
    (trigger = "db-table" → (change_page trigger rows cp ps).1 = 0) := by
  have h1 : 1 ≤ totalPagesOf rows ps := by
    unfold totalPagesOf
    split
    · exact le_refl 1
    · exact le_max_left 1 _
  refine ⟨h1, ?_, ?_⟩
  · unfold totalPagesOf
    rw [if_neg (by omega)]
  rcases ht with h | h | h <;> subst h <;>
    simp only [change_page] <;> simp <;> omega

/-- Witness for C7 at a concrete input. -/
theorem change_page_bounds_witness :
    (1 ≤ 2 ∧ 0 ≤ (1 : Int) ∧ (1 : Int) ≤ (totalPagesOf (some [[], [], []]) 2 : Int) - 1) ∧
    (0 ≤ (change_page "next-page" (some [[], [], []]) 1 2).1 ∧
      (change_page "next-page" (some [[], [], []]) 1 2).1 ≤
        (totalPagesOf (some [[], [], []]) 2 : Int) - 1) :=
  ⟨⟨by decide, by decide, by decide⟩,
    ⟨(change_page_bounds (some [[], [], []]) 1 2 "next-page" (by decide)
        (Or.inr (Or.inl rfl)) (by decide) (by decide)).2.2.1,
      (change_page_bounds (some [[], [], []]) 1 2 "next-page" (by decide)
        (Or.inr (Or.inl rfl)) (by decide) (by decide)).2.2.2.1⟩⟩

/-- C8 (claim): in the schemas of both projections, every field except
`description` (name, parent, type, the action marker) is non-editable, and
`description` is editable whenever present. -/
theorem schemas_only_description_editable (df : DataFrame) (p : String) (spec : ColumnSpec) :
    (spec ∈ (make_tables_view df).2 → (spec.editable = true ↔ spec.id = "description")) ∧
    (∀ cdf sch, make_columns_view df p = some (cdf, sch) → spec ∈ sch →
      (spec.editable = true ↔ spec.id = "description")) := by
  constructor
  · intro h
    rw [make_tables_view_schema] at h
    exact mem_tablesSchema_editable h
  · intro cdf sch hsome hmem
    rw [(make_columns_view_shape hsome).1] at hmem
    exact mem_columnsSchema_editable hmem

/-- A small concrete dataset with all four Entry fields, used by the
witnesses. -/
def sampleDF : DataFrame :=
  ⟨["name", "parent", "type", "description"],
   [[Val.str "orders", Val.str "cat.sch.orders", Val.str "table", Val.str ""],
    [Val.str "id", Val.str "orders", Val.str "bigint", Val.str ""]]⟩

/-- A small concrete dataset lacking the `type` field. -/
def sampleNoType : DataFrame :=
  ⟨["name", "parent", "description"],
   [[Val.str "t1", Val.str "c.s", Val.str "d1"],
    [Val.str "c1", Val.str "t1", Val.null]]⟩

/-- Witness for C8 at a concrete schema entry of a concrete dataset. -/
theorem schemas_only_description_editable_witness :
    ((⟨"Description", "description", true, "input"⟩ : ColumnSpec) ∈
      (make_tables_view sampleDF).2) ∧
    ((⟨"Description", "description", true, "input"⟩ : ColumnSpec).editable = true ↔
      (⟨"Description", "description", true, "input"⟩ : ColumnSpec).id = "description") :=
  ⟨by decide,
    (schemas_only_description_editable sampleDF "orders" _).1 (by decide)⟩

/-- C5 (claim): for every full dataset (its schema containing the Entry
model's `parent` field) and every parent-table name, both projection
builders are total — `make_columns_view` returns a value rather than
raising — the Columns projection has at most as many rows as the full
dataset, and both schemas are derived from the full dataset's field set
(hence non-empty headers even when no rows match). -/
theorem projection_totality (df : DataFrame) (p : String) (hp : "parent" ∈ df.cols) :
    (∃ cdf, make_columns_view df p = some (cdf, columnsSchema df.cols) ∧
      cdf.rows.length ≤ df.rows.length) ∧
    (make_tables_view df).2 = tablesSchema df.cols := by
  constructor
  · unfold make_columns_view
    rw [if_pos hp]
    by_cases htc : "type" ∈ df.cols <;>
      simp only [htc, if_true, if_false, filterRows] <;>
      exact ⟨_, rfl, List.length_filter_le _ _⟩
  · exact make_tables_view_schema df

/-- Witness for C5 at a concrete dataset. -/
theorem projection_totality_witness :
    ("parent" ∈ sampleDF.cols) ∧
    (∃ cdf, make_columns_view sampleDF "orders" = some (cdf, columnsSchema sampleDF.cols) ∧
      cdf.rows.length ≤ sampleDF.rows.length) :=
  ⟨by decide, (projection_totality sampleDF "orders" (by decide)).1⟩

/-- C6 (claim): when the full dataset has no `type` field, the Tables
projection keeps every row (merely appending the action marker), and the
Columns projection for any parent filters only by `parent`. -/
theorem no_type_field_projections (df : DataFrame) (p : String)
    (ht : "type" ∉ df.cols) (hp : "parent" ∈ df.cols) (ho : "__open__" ∉ df.cols) :
    (make_tables_view df).1.rows = df.rows.map (fun r => r ++ [Val.str "Open"]) ∧
    ∃ cdf sch, make_columns_view df p = some (cdf, sch) ∧
      cdf.rows = df.rows.filter (fun r => cellEqS df.cols r "parent" p) := by
  constructor
  · simp [make_tables_view, setColAll, ht, colIdx_eq_none _ _ ho]
  · unfold make_columns_view
    rw [if_pos hp]
    simp only [ht, if_false, filterRows]
    exact ⟨_, _, rfl, rfl⟩

/-- Witness for C6 at a concrete dataset lacking the `type` field. -/
theorem no_type_field_projections_witness :
    ("type" ∉ sampleNoType.cols ∧ "parent" ∈ sampleNoType.cols ∧
      "__open__" ∉ sampleNoType.cols) ∧
    (make_tables_view sampleNoType).1.rows =
      sampleNoType.rows.map (fun r => r ++ [Val.str "Open"]) :=
  ⟨⟨by decide, by decide, by decide⟩,
    (no_type_field_projections sampleNoType "t1" (by decide) (by decide) (by decide)).1⟩

/-- C1 (claim): when Save has a dataset name and a cached full dataset and
the storage write raises, the emitted tuple is `no_update` in every slot —
rows, schema, label, dataset name, full dataset, mode, selection — except
the save status, which carries `"Error saving changes: "` plus the error
message. -/
theorem save_write_failure_rolls_back (saveClicks : Nat) (t : String) (ht : t ≠ "")
    (fullDf currentViewRows : DataFrame) (viewMode selectedTable : Option String)
    (write : String → DataFrame → Except String Unit) (e : String)
    (hw : write t (mergeSave fullDf currentViewRows viewMode selectedTable) =
      .error e) :
    saveBranch saveClicks (some t) (some fullDf) currentViewRows viewMode selectedTable
        write =
      { noChange with saveStatus := .set ("Error saving changes: " ++ e) } := by
  have h1 : truthyOpt (some t) = true := by
    simp [truthyOpt, beq_eq_false_iff_ne, ht]
  unfold saveBranch
  rw [h1]
  simp only [Bool.not_true, Bool.false_eq_true, if_false, Option.getD_some]
  rw [hw]

/-- Witness for C1 at a concrete failing write. -/
theorem save_write_failure_rolls_back_witness :
    ("c.s.data_dict" ≠ "") ∧
    ((fun (_ : String) (_ : DataFrame) => (Except.error "disk full" : Except String Unit))
        "c.s.data_dict" (mergeSave sampleDF sampleDF (some "tables") none) =
      Except.error "disk full") ∧
    saveBranch 1 (some "c.s.data_dict") (some sampleDF) sampleDF (some "tables") none
        (fun _ _ => Except.error "disk full") =
      { noChange with saveStatus := .set ("Error saving changes: " ++ "disk full") } :=
  ⟨by decide, rfl,
    save_write_failure_rolls_back 1 "c.s.data_dict" (by decide) sampleDF sampleDF
      (some "tables") none _ "disk full" rfl⟩

theorem upd_status_ne_of_head (x y : String) (cx cy : Char)
    (hx : x.data.head? = some cx) (hy : y.data.head? = some cy) (h : cx ≠ cy) :
    (Upd.set x : Upd String) ≠ Upd.set y := by
  intro he
  have hxy : x = y := by injection he
  rw [hxy, hy] at hx
  injection hx with h2
  exact h h2.symm

/-- C9 (claim): Load tests the raw catalog/schema values before trimming,
so whitespace-only inputs count as present: no missing-input status is
produced; instead both are trimmed to `""`, the dataset name `"..data_dict"`
is composed, and the storage read is attempted with that name. -/
theorem load_checks_before_trim (c s : String) (hc : c ≠ "") (hct : pyStrip c = "")
    (hs : s ≠ "") (hst : pyStrip s = "") (now : String)
    (read : String → Except String DataFrame) :
    loadBranch (some c) (some s) now read = loadAttempt "" "" now read ∧
    (∀ e, read "..data_dict" = .error e →
      (loadBranch (some c) (some s) now read).loadStatus =
        .set ("Error loading ..data_dict: " ++ e)) ∧
    (loadBranch (some c) (some s) now read).loadStatus ≠
      .set "Please enter both catalog and schema." := by
  have h1 : truthyOpt (some c) = true := by
    simp [truthyOpt, beq_eq_false_iff_ne, hc]
  have h2 : truthyOpt (some s) = true := by
    simp [truthyOpt, beq_eq_false_iff_ne, hs]
  have hmain : loadBranch (some c) (some s) now read = loadAttempt "" "" now read := by
    unfold loadBranch
    rw [h1, h2]
    simp only [Bool.not_true, Bool.or_self, Bool.false_eq_true, if_false,
      Option.getD_some, hct, hst]
  refine ⟨hmain, ?_, ?_⟩
  · intro e he
    rw [hmain]
    unfold loadAttempt
    simp only [show ("" ++ "." ++ "" ++ ".data_dict" : String) = "..data_dict" from rfl, he]
    rfl
  · rw [hmain]
    unfold loadAttempt
    simp only [show ("" ++ "." ++ "" ++ ".data_dict" : String) = "..data_dict" from rfl]
    cases hread : read "..data_dict" with
    | error e =>
      simp only [hread]
      exact upd_status_ne_of_head _ _ 'E' 'P' rfl rfl (by decide)
    | ok df =>
      simp only [hread]
      exact upd_status_ne_of_head _ _ 'L' 'P' rfl rfl (by decide)

/-- Witness for C9 at whitespace-only inputs and a concrete failing read. -/
theorem load_checks_before_trim_witness :
    (" " ≠ "" ∧ pyStrip " " = "" ∧ "\t" ≠ "" ∧ pyStrip "\t" = "") ∧
    loadBranch (some " ") (some "\t") "12:00:00" (fun _ => Except.error "boom") =
      loadAttempt "" "" "12:00:00" (fun _ => Except.error "boom") :=
  ⟨⟨by decide, by decide, by decide, by decide⟩,
    (load_checks_before_trim " " "\t" (by decide) (by decide) (by decide) (by decide)
      "12:00:00" (fun _ => Except.error "boom")).1⟩

theorem resolveOpenName_oob (cvr : DataFrame) (i : Nat) (h : cvr.rows.length ≤ i) :
    resolveOpenName cvr (some i) = none := by
  have hd : (decide (i < cvr.rows.length)) = false := decide_eq_false (Nat.not_lt.mpr h)
  unfold resolveOpenName
  simp [hd]

/-- C10 (claim): the drill-down branch is a strict no-op — every output
slot `no_update` — whenever the mode is not Tables, the activated cell is
not the action-marker cell, no full dataset is cached, the row index is
missing or out of range, or the resolved row has no (truthy) name. -/
theorem open_row_noop (viewMode : Option String) (activeCell : Option ActiveCell)
    (fullDataRaw : Option DataFrame) (cvr : DataFrame)
    (h : viewMode ≠ some "tables"
      ∨ activeCell.bind ActiveCell.column_id ≠ some "__open__"
      ∨ fullDataRaw = none
      ∨ activeCell.bind ActiveCell.row = none
      ∨ (∃ i, activeCell.bind ActiveCell.row = some i ∧ cvr.rows.length ≤ i)
      ∨ truthyOpt (resolveOpenName cvr (activeCell.bind ActiveCell.row)) = false) :
    openRowBranch viewMode activeCell fullDataRaw cvr = some noChange := by
  cases activeCell with
  | none => rfl
  | some ac =>
    cases fullDataRaw with
    | none => rfl
    | some fullDf =>
      simp only [Option.some_bind] at h
      unfold openRowBranch
      simp only []
      by_cases hvm : viewMode = some "tables"
      case neg =>
        rw [beq_eq_false_iff_ne.mpr hvm]
        rfl
      case pos =>
        subst hvm
        by_cases hcid : ac.column_id = some "__open__"
        case neg =>
          rw [beq_eq_false_iff_ne.mpr hcid]
          rfl
        case pos =>
          have hres : resolveOpenName cvr ac.row = none ∨
              resolveOpenName cvr ac.row = some "" := by
            rcases h with h | h | h | h | ⟨i, hi, hlen⟩ | h
            · exact absurd rfl h
            · exact absurd hcid h
            · exact absurd h (by simp)
            · left; rw [h]; rfl
            · left; rw [hi]; exact resolveOpenName_oob cvr i hlen
            · cases hr2 : resolveOpenName cvr ac.row with
              | none => exact Or.inl rfl
              | some n =>
                right
                rw [hr2] at h
                have hn : n = "" := by simpa [truthyOpt] using h
                rw [hn]
          rw [hcid]
          simp only [beq_self_eq_true, Bool.and_true, Bool.and_self, if_true]
          rcases hres with hres | hres
          · rw [hres]
          · rw [hres]; rfl


/-- Witness for C10: a click while in Columns mode changes nothing. -/
theorem open_row_noop_witness :
    ((some "columns" : Option String) ≠ some "tables") ∧
    openRowBranch (some "columns") (some ⟨some 0, some "__open__"⟩) (some sampleDF)
      sampleDF = some noChange :=
  ⟨by decide,
    open_row_noop (some "columns") (some ⟨some 0, some "__open__"⟩) (some sampleDF)
      sampleDF (Or.inl (by decide))⟩

/-- A one-row full dataset used in C4's counterexample. -/
def fbFull : DataFrame :=
  ⟨["name", "parent", "description"], [[Val.str "a", Val.str "p", Val.str "x"]]⟩

/-- A one-row edited view, matching no row of `fbFull`. -/
def fbView : DataFrame :=
  ⟨["name", "parent", "description"], [[Val.str "b", Val.str "q", Val.str "y"]]⟩

/-- Counterexample for C4: with mode `"columns"` but no selected table, the
merge step does wholesale-replace the full dataset with the edited rows —
the full dataset's only row vanishes even though the mode is Columns. -/
theorem merge_columns_no_selection_cex :
    mergeSave fbFull fbView (some "columns") none = fbView ∧ fbView ≠ fbFull := by
  constructor
  · rfl
  · decide

/-- C4 (amended): the merge step wholesale-replaces the full dataset with
the edited rows exactly when the mode is not Tables and not (Columns with a
truthy selected table); whenever the mode is Columns *and a selected table
is present*, and likewise in Tables mode, the per-row scoped update applies
instead — the result keeps the full dataset's schema and row count. -/
theorem merge_dispatch_amended (full view : DataFrame) (vm sel : Option String) :
    ((vm ≠ some "tables" ∧ ¬(vm = some "columns" ∧ truthyOpt sel = true)) →
      mergeSave full view vm sel = dropHelpers full.cols view) ∧
    ((vm = some "columns" ∧ truthyOpt sel = true) →
      (mergeSave full view vm sel).cols = full.cols ∧
      (mergeSave full view vm sel).rows.length = full.rows.length) ∧
    (vm = some "tables" →
      (mergeSave full view vm sel).cols = full.cols ∧
      (mergeSave full view vm sel).rows.length = full.rows.length) := by
  refine ⟨?_, ?_, ?_⟩
  · rintro ⟨h1, h2⟩
    have e1 : (vm == some "tables") = false := beq_eq_false_iff_ne.mpr h1
    have e2 : ((vm == some "columns") && truthyOpt sel) = false := by
      cases hv : (vm == some "columns") with
      | false => rfl
      | true =>
        have : vm = some "columns" := by simpa using hv
        cases ht : truthyOpt sel with
        | false => rfl
        | true => exact absurd ⟨this, ht⟩ h2
    unfold mergeSave
    rw [e1, e2]
    rfl
  · rintro ⟨h1, h2⟩
    subst h1
    unfold mergeSave
    rw [show ((some "columns" : Option String) == some "tables") = false from rfl,
      show ((some "columns" : Option String) == some "columns") = true from rfl, h2]
    simp only [Bool.true_and, Bool.false_eq_true, if_false, if_true]
    exact ⟨foldl_mergeColumnsRow_cols _ _ _, foldl_mergeColumnsRow_length _ _ _⟩
  · rintro h1
    subst h1
    unfold mergeSave
    rw [show ((some "tables" : Option String) == some "tables") = true from rfl]
    simp only [if_true]
    exact ⟨foldl_mergeTablesRow_cols _ _ _, foldl_mergeTablesRow_length _ _ _⟩

/-- Witness for C4's amended theorem at concrete inputs. -/
theorem merge_dispatch_amended_witness :
    ((some "columns" : Option String) = some "columns" ∧ truthyOpt (some "t1") = true) ∧
    ((mergeSave sampleDF sampleDF (some "columns") (some "t1")).cols = sampleDF.cols ∧
      (mergeSave sampleDF sampleDF (some "columns") (some "t1")).rows.length =
        sampleDF.rows.length) :=
  ⟨⟨rfl, by decide⟩,
    (merge_dispatch_amended sampleDF sampleDF (some "columns") (some "t1")).2.1
      ⟨rfl, by decide⟩⟩

/-!
## Cell-level lemmas used by the merge frame/idempotence proofs
-/

theorem cellEqS_iff {cols : List String} {r : Row} {c s : String} :
    cellEqS cols r c s = true ↔ cellR cols r c = some (Val.str s) := by
  unfold cellEqS
  exact beq_iff_eq

theorem cellEqS_false_iff {cols : List String} {r : Row} {c s : String} :
    cellEqS cols r c s = false ↔ cellR cols r c ≠ some (Val.str s) := by
  unfold cellEqS
  exact beq_eq_false_iff_ne

theorem pyGetStr_eq_some {cols : List String} {r : Row} {c s : String}
    (h : pyGetStr cols r c = some s) : cellR cols r c = some (Val.str s) := by
  unfold pyGetStr at h
  cases hm : cellR cols r c with
  | none => rw [hm] at h; simp at h
  | some v =>
    cases v with
    | str t => rw [hm] at h; simp at h; rw [h]
    | null => rw [hm] at h; simp at h

theorem cellR_none_of_not_mem {cols : List String} {c : String} (h : c ∉ cols) (r : Row) :
    cellR cols r c = none := by
  unfold cellR
  rw [colIdx_eq_none _ _ h]
  rfl

/-- Editing a cell at the `description` index leaves every other column's
cell unchanged (column names are looked up, and distinct names have
distinct indices). -/
theorem cellR_set_other {cols : List String} {j : Nat}
    (hj : colIdx cols "description" = some j) {c : String} (hc : c ≠ "description")
    (r : Row) (d : Val) : cellR cols (r.set j d) c = cellR cols r c := by
  unfold cellR
  cases hcc : colIdx cols c with
  | none => rfl
  | some jc =>
    have hne : j ≠ jc := (colIdx_ne hcc hj hc).symm
    simp only [Option.some_bind]
    exact List.getElem?_set_ne hne

/-- One description cell of row `k` replaced by `d`: the model of the single
user edit made against the displayed projection. -/
def editDesc (df : DataFrame) (k : Nat) (d : Val) : DataFrame :=
  match colIdx df.cols "description", df.rows[k]? with
  | some j, some r => ⟨df.cols, df.rows.set k (r.set j d)⟩
  | _, _ => df

theorem editDesc_cols (df : DataFrame) (k : Nat) (d : Val) :
    (editDesc df k d).cols = df.cols := by
  unfold editDesc
  cases colIdx df.cols "description" <;> cases df.rows[k]? <;> rfl

/-- Every row of the edited projection comes from a projection row with the
same length and the same cells outside `description`. -/
theorem editDesc_mem (df : DataFrame) (k : Nat) (d : Val) :
    ∀ r' ∈ (editDesc df k d).rows, ∃ r0 ∈ df.rows,
      r'.length = r0.length ∧
      ∀ c, c ≠ "description" → cellR df.cols r' c = cellR df.cols r0 c := by
  unfold editDesc
  cases hj : colIdx df.cols "description" with
  | none => intro r' hr'; exact ⟨r', hr', rfl, fun _ _ => rfl⟩
  | some j =>
    cases hk : df.rows[k]? with
    | none => intro r' hr'; exact ⟨r', hr', rfl, fun _ _ => rfl⟩
    | some r0 =>
      intro r' hr'
      rcases List.mem_or_eq_of_mem_set hr' with hmem | heq
      · exact ⟨r', hmem, rfl, fun _ _ => rfl⟩
      · subst heq
        refine ⟨r0, List.getElem?_mem hk, by simp, fun c hc => ?_⟩
        exact cellR_set_other hj hc r0 d

/-- Rows of the merged Columns-mode full dataset at positions whose
original row has a different parent or is a table row are untouched, as
long as every edited row carries the selected parent and a non-null,
non-`"table"` type. -/
theorem foldl_mergeColumnsRow_preserve (fullCols : List String) (T : String)
    (htc : "type" ∈ fullCols) :
    ∀ (rs : List Row) (acc : DataFrame) (i : Nat) (r : Row),
      acc.cols = fullCols →
      acc.rows[i]? = some r →
      (∀ r' ∈ rs, cellR fullCols r' "parent" = some (Val.str T) ∧
        ∃ t, t ≠ "table" ∧ cellR fullCols r' "type" = some (Val.str t)) →
      (cellR fullCols r "parent" ≠ some (Val.str T) ∨
        cellR fullCols r "type" = some (Val.str "table")) →
      (rs.foldl (fun a r' => mergeColumnsRow a fullCols r') acc).rows[i]? = some r := by
  intro rs
  induction rs with
  | nil => intro acc i r _ hacc _ _; exact hacc
  | cons r0 rs ih =>
    intro acc i r hcols hacc hgood hfr
    rw [List.foldl_cons]
    refine ih _ i r (by rw [mergeColumnsRow_cols, hcols]) ?_
      (fun r' h' => hgood r' (by simp [h'])) hfr
    obtain ⟨hpar, t, htne, htyp⟩ := hgood r0 (by simp)
    have hpar' : pyGetStr fullCols r0 "parent" = some T := by
      unfold pyGetStr; rw [hpar]
    have htyp' : pyGetStr fullCols r0 "type" = some t := by
      unfold pyGetStr; rw [htyp]
    unfold mergeColumnsRow
    cases hn : pyGetStr fullCols r0 "name" with
    | none => exact hacc
    | some n =>
      simp only [hn, hpar']
      rw [hcols, if_pos htc, htyp']
      refine applyViewRowWith_getElem?_of_not _ _ _ _ _ _ hacc ?_
      unfold columnsPred
      simp only [if_pos htc]
      rcases hfr with hfr | hfr
      · have hp : cellEqS fullCols r "parent" T = false := cellEqS_false_iff.mpr hfr
        simp [hp]
      · have hty : cellEqS fullCols r "type" t = false := by
          apply cellEqS_false_iff.mpr
          rw [hfr]
          intro hh
          injection hh with hv
          injection hv with hv2
          exact htne hv2.symm
        simp [hty]

/-- The concrete dataset refuting C2 as stated: the full dataset has a
`type` column, but one column row carries a null type; it shares
`(name, parent)` with a table row. -/
def nullTypeFull : DataFrame :=
  ⟨["name", "parent", "type", "description"],
   [[Val.str "id", Val.str "T", Val.null, Val.str "d1"],
    [Val.str "id", Val.str "T", Val.str "table", Val.str "d2"]]⟩

/-- The Columns projection of `nullTypeFull` for table `"T"`. -/
def nullTypeProj : DataFrame :=
  ⟨["name", "parent", "type", "description"],
   [[Val.str "id", Val.str "T", Val.null, Val.str "d1"]]⟩

/-- Counterexample for C2 as stated: merging the Columns projection for
`"T"` (one description edited) back into a full dataset that has a `type`
field alters the row at index 1 even though its `type` is `"table"` —
the edited row's null type degrades the match key to `(name, parent)` and
the update fans out onto the table row. -/
theorem merge_columns_frame_cex :
    make_columns_view nullTypeFull "T" =
      some (nullTypeProj, columnsSchema nullTypeFull.cols) ∧
    nullTypeFull.rows[1]? =
      some [Val.str "id", Val.str "T", Val.str "table", Val.str "d2"] ∧
    cellR nullTypeFull.cols [Val.str "id", Val.str "T", Val.str "table", Val.str "d2"]
      "type" = some (Val.str "table") ∧
    (mergeSave nullTypeFull (editDesc nullTypeProj 0 (Val.str "X")) (some "columns")
        (some "T")).rows[1]? ≠
      some [Val.str "id", Val.str "T", Val.str "table", Val.str "d2"] := by
  refine ⟨rfl, rfl, rfl, ?_⟩
  decide

/-- C2 (amended): for a well-formed full dataset whose schema has `type`
and `parent` fields and all of whose rows carry a non-null (string) type,
and a non-empty table name `T`, merging the Columns projection for `T` with
one description edited back into the full dataset leaves every row whose
`parent` differs from `T`, or whose `type` equals `"table"`, exactly
unchanged (same row at the same position). -/
theorem merge_columns_frame (full : DataFrame) (T : String) (k : Nat) (d : Val)
    (hwf : full.WF) (hT : T ≠ "")
    (htc : "type" ∈ full.cols)
    (hnn : ∀ r ∈ full.rows, ∃ t, cellR full.cols r "type" = some (Val.str t))
    (proj : DataFrame) (sch : List ColumnSpec)
    (hproj : make_columns_view full T = some (proj, sch))
    (i : Nat) (r : Row) (hr : full.rows[i]? = some r)
    (hfr : cellR full.cols r "parent" ≠ some (Val.str T) ∨
      cellR full.cols r "type" = some (Val.str "table")) :
    (mergeSave full (editDesc proj k d) (some "columns") (some T)).rows[i]? = some r := by
  have hp : "parent" ∈ full.cols := by
    by_contra hp
    unfold make_columns_view at hproj
    rw [if_neg hp] at hproj
    exact absurd hproj (by simp)
  have hprojeq : proj = filterRows full
      (fun r => cellEqS full.cols r "parent" T && !cellEqS full.cols r "type" "table") := by
    unfold make_columns_view at hproj
    rw [if_pos hp] at hproj
    simp only [htc, if_true, Option.some.injEq, Prod.mk.injEq] at hproj
    exact hproj.1.symm
  have hprojcols : proj.cols = full.cols := by rw [hprojeq]; rfl
  -- facts about the edited row set
  have hEgood : ∀ r' ∈ (editDesc proj k d).rows,
      cellR full.cols r' "parent" = some (Val.str T) ∧
      ∃ t, t ≠ "table" ∧ cellR full.cols r' "type" = some (Val.str t) := by
    intro r' hr'
    obtain ⟨r0, hr0, _, hcells⟩ := editDesc_mem proj k d r' hr'
    rw [hprojeq] at hr0
    have hr0full : r0 ∈ full.rows := List.mem_of_mem_filter hr0
    have hr0pred := List.of_mem_filter hr0
    simp only [Bool.and_eq_true, Bool.not_eq_true'] at hr0pred
    obtain ⟨hpar0, hty0⟩ := hr0pred
    have hpar0' := cellEqS_iff.mp hpar0
    have hty0' := cellEqS_false_iff.mp hty0
    obtain ⟨t, ht⟩ := hnn r0 hr0full
    have hcellsp := hcells "parent" (by decide)
    have hcellst := hcells "type" (by decide)
    rw [hprojcols] at hcellsp hcellst
    refine ⟨by rw [hcellsp]; exact hpar0', t, ?_, by rw [hcellst]; exact ht⟩
    intro hteq
    subst hteq
    exact hty0' ht
  have hElen : ∀ r' ∈ (editDesc proj k d).rows,
      r'.length = (editDesc proj k d).cols.length := by
    intro r' hr'
    obtain ⟨r0, hr0, hlen, _⟩ := editDesc_mem proj k d r' hr'
    rw [hprojeq] at hr0
    have hr0full : r0 ∈ full.rows := List.mem_of_mem_filter hr0
    rw [editDesc_cols, hprojcols, hlen]
    exact hwf.2 r0 hr0full
  have hEsub : ∀ c ∈ (editDesc proj k d).cols, c ∈ full.cols := by
    rw [editDesc_cols, hprojcols]
    exact fun c hc => hc
  have hdrop : dropHelpers full.cols (editDesc proj k d) = editDesc proj k d :=
    dropHelpers_self _ _ hElen hEsub
  have hTt : truthyOpt (some T) = true := by
    simp [truthyOpt, beq_eq_false_iff_ne, hT]
  unfold mergeSave
  rw [show ((some "columns" : Option String) == some "tables") = false from rfl,
    show ((some "columns" : Option String) == some "columns") = true from rfl, hTt]
  simp only [Bool.false_eq_true, if_false, Bool.true_and, if_true]
  rw [hdrop, editDesc_cols, hprojcols]
  exact foldl_mergeColumnsRow_preserve full.cols T htc _ full i r rfl hr hEgood hfr

/-- Witness for C2's amended theorem: the spec's §8-style dataset, editing
the one column row's description; the table row at index 0 is unchanged. -/
theorem merge_columns_frame_witness :
    (sampleDF.WF ∧ "type" ∈ sampleDF.cols ∧
      make_columns_view sampleDF "orders" =
        some (⟨sampleDF.cols, [[Val.str "id", Val.str "orders", Val.str "bigint",
          Val.str ""]]⟩, columnsSchema sampleDF.cols) ∧
      sampleDF.rows[0]? = some [Val.str "orders", Val.str "cat.sch.orders",
        Val.str "table", Val.str ""]) ∧
    (mergeSave sampleDF
        (editDesc ⟨sampleDF.cols, [[Val.str "id", Val.str "orders", Val.str "bigint",
          Val.str ""]]⟩ 0 (Val.str "order id")) (some "columns")
        (some "orders")).rows[0]? =
      some [Val.str "orders", Val.str "cat.sch.orders", Val.str "table", Val.str ""] :=
  ⟨⟨by decide, by decide, rfl, rfl⟩,
    merge_columns_frame sampleDF "orders" 0 (Val.str "order id") (by decide) (by decide)
      (by decide)
      (by intro r hr; fin_cases hr
          · exact ⟨"table", rfl⟩
          · exact ⟨"bigint", rfl⟩)
      _ _ rfl 0 _ rfl (Or.inr rfl)⟩

/-!
## Merge idempotence: keys, uniqueness, and self-merge identity
-/

/-- The composite identity key of a row: its `name`, `parent` and `type`
cells (the `type` component is `none` when the schema lacks the column). -/
def keyOf (cols : List String) (r : Row) : Option Val × Option Val × Option Val :=
  (cellR cols r "name", cellR cols r "parent", cellR cols r "type")

/-- The spec's §3 uniqueness invariant: the composite keys of the rows are
pairwise distinct. -/
def UniqueKeys (df : DataFrame) : Prop :=
  (df.rows.map (keyOf df.cols)).Nodup

instance (df : DataFrame) : Decidable (UniqueKeys df) := by
  unfold UniqueKeys; infer_instance

theorem mem_getElem? {α : Type} {l : List α} {a : α} (h : a ∈ l) :
    ∃ n : Nat, l[n]? = some a := by
  obtain ⟨n, hn⟩ := List.get_of_mem h
  refine ⟨n.1, ?_⟩
  rw [List.getElem?_eq_getElem n.2, ← List.get_eq_getElem, hn]

theorem uniqueKeys_eq {df : DataFrame} (h : UniqueKeys df) {i j : Nat} {ri rj : Row}
    (hi : df.rows[i]? = some ri) (hj : df.rows[j]? = some rj)
    (hk : keyOf df.cols ri = keyOf df.cols rj) : ri = rj := by
  have hi' : (df.rows.map (keyOf df.cols))[i]? = some (keyOf df.cols ri) := by
    rw [List.getElem?_map, hi]; rfl
  have hj' : (df.rows.map (keyOf df.cols))[j]? = some (keyOf df.cols rj) := by
    rw [List.getElem?_map, hj]; rfl
  have hlt : i < (df.rows.map (keyOf df.cols)).length := by
    by_contra hc
    rw [List.getElem?_eq_none (Nat.le_of_not_lt hc)] at hi'
    exact absurd hi' (by simp)
  have hij : i = j := by
    apply List.getElem?_inj hlt h
    rw [hi', hj', hk]
  subst hij
  rw [hi] at hj
  injection hj

/-- Copying a row's own values onto the rows its mask selects is the
identity when every selected row is that very row. -/
theorem applyViewRowWith_self (M : DataFrame) (pred : Row → Bool) (r : Row)
    (hlen : r.length = M.cols.length)
    (hself : ∀ fr ∈ M.rows, pred fr = true → fr = r) :
    applyViewRowWith pred M.cols r M = M := by
  unfold applyViewRowWith
  apply foldl_fixed
  intro c hc
  unfold setColWhere
  cases hj : colIdx M.cols c with
  | none => rfl
  | some j =>
    have hjlt : j < M.cols.length := by
      have hg := colIdx_getElem? _ _ _ hj
      by_contra hge
      rw [List.getElem?_eq_none (Nat.le_of_not_lt hge)] at hg
      exact absurd hg (by simp)
    have hrj : r[j]? = some (rawGet M.cols r c) := by
      unfold rawGet cellR
      rw [hj]
      simp only [Option.some_bind]
      cases hv : r[j]? with
      | none =>
        have : r.length ≤ j := by
          by_contra hcc
          rw [List.getElem?_eq_getElem (Nat.lt_of_not_le hcc)] at hv
          exact absurd hv (by simp)
        omega
      | some v => rfl
    have hrows : applyMask j (rawGet M.cols r c) M.rows (M.rows.map pred) = M.rows := by
      apply List.ext_get?
      intro i
      rw [List.get?_eq_getElem?, List.get?_eq_getElem?,
        applyMask_getElem? j _ M.rows (M.rows.map pred) i]
      cases hri : M.rows[i]? with
      | none => simp [List.getElem?_map, hri]
      | some fr =>
        rw [List.getElem?_map, hri]
        by_cases hpf : pred fr = true
        · have hfr : fr = r := hself fr (List.getElem?_mem hri) hpf
          subst hfr
          simp [hpf, list_set_self fr j _ hrj]
        · simp [hpf]
    simp only []
    rw [hrows]

/-- A merge-loop iteration driven by a mask predicate that forces key
equality with the processed row is the identity, under key uniqueness. -/
theorem merge_self_row (M : DataFrame) (hwf : M.WF) (huniq : UniqueKeys M)
    (r0 : Row) (hr0 : r0 ∈ M.rows) (pred : Row → Bool)
    (hkey : ∀ fr, pred fr = true → keyOf M.cols fr = keyOf M.cols r0) :
    applyViewRowWith pred M.cols r0 M = M := by
  apply applyViewRowWith_self M pred r0 (hwf.2 r0 hr0)
  intro fr hfr hp
  obtain ⟨i, hi⟩ := mem_getElem? hfr
  obtain ⟨j, hj⟩ := mem_getElem? hr0
  exact uniqueKeys_eq huniq hi hj (hkey fr hp)

theorem mergeTablesRow_self (M : DataFrame) (hwf : M.WF) (huniq : UniqueKeys M)
    (r0 : Row) (hr0 : r0 ∈ M.rows)
    (htype : "type" ∈ M.cols → cellR M.cols r0 "type" = some (Val.str "table")) :
    mergeTablesRow M M.cols r0 = M := by
  unfold mergeTablesRow
  cases hn : pyGetStr M.cols r0 "name" with
  | none => rfl
  | some n =>
    cases hp : pyGetStr M.cols r0 "parent" with
    | none => rfl
    | some p =>
      simp only []
      apply merge_self_row M hwf huniq r0 hr0
      intro fr hfp
      unfold tablesPred at hfp
      by_cases htc : "type" ∈ M.cols
      · rw [if_pos htc] at hfp
        simp only [Bool.and_eq_true] at hfp
        obtain ⟨⟨h1, h2⟩, h3⟩ := hfp
        unfold keyOf
        rw [cellEqS_iff.mp h1, cellEqS_iff.mp h2, cellEqS_iff.mp h3,
          pyGetStr_eq_some hn, pyGetStr_eq_some hp, htype htc]
      · rw [if_neg htc] at hfp
        simp only [Bool.and_eq_true] at hfp
        obtain ⟨h2, h3⟩ := hfp
        unfold keyOf
        rw [cellEqS_iff.mp h2, cellEqS_iff.mp h3, pyGetStr_eq_some hn,
          pyGetStr_eq_some hp, cellR_none_of_not_mem htc fr, cellR_none_of_not_mem htc r0]

theorem mergeColumnsRow_self (M : DataFrame) (hwf : M.WF) (huniq : UniqueKeys M)
    (r0 : Row) (hr0 : r0 ∈ M.rows)
    (htype : "type" ∈ M.cols → ∃ t, cellR M.cols r0 "type" = some (Val.str t)) :
    mergeColumnsRow M M.cols r0 = M := by
  unfold mergeColumnsRow
  cases hn : pyGetStr M.cols r0 "name" with
  | none => rfl
  | some n =>
    cases hp : pyGetStr M.cols r0 "parent" with
    | none => rfl
    | some p =>
      simp only []
      apply merge_self_row M hwf huniq r0 hr0
      intro fr hfp
      by_cases htc : "type" ∈ M.cols
      · obtain ⟨t, ht⟩ := htype htc
        rw [if_pos htc] at hfp
        rw [show pyGetStr M.cols r0 "type" = some t from by unfold pyGetStr; rw [ht]] at hfp
        unfold columnsPred at hfp
        simp only [if_pos htc, Bool.and_eq_true] at hfp
        obtain ⟨⟨h1, h2⟩, h3⟩ := hfp
        unfold keyOf
        rw [cellEqS_iff.mp h1, cellEqS_iff.mp h2, cellEqS_iff.mp h3,
          pyGetStr_eq_some hn, pyGetStr_eq_some hp, ht]
      · rw [if_neg htc] at hfp
        unfold columnsPred at hfp
        simp only [Bool.and_eq_true] at hfp
        obtain ⟨h1, h2⟩ := hfp
        unfold keyOf
        rw [cellEqS_iff.mp h1, cellEqS_iff.mp h2, pyGetStr_eq_some hn,
          pyGetStr_eq_some hp, cellR_none_of_not_mem htc fr, cellR_none_of_not_mem htc r0]

/-- Dropping helper columns undoes the `__open__` marker attachment of the
Tables view, recovering the filtered rows exactly. -/
theorem dropHelpers_setColAll (M tdf : DataFrame) (hcols : tdf.cols = M.cols)
    (hlen : ∀ r ∈ tdf.rows, r.length = M.cols.length) (ho : "__open__" ∉ M.cols)
    (v : Val) : dropHelpers M.cols (setColAll tdf "__open__" v) = tdf := by
  have hnone : colIdx tdf.cols "__open__" = none := by
    rw [hcols]; exact colIdx_eq_none _ _ ho
  unfold setColAll
  rw [hnone]
  unfold dropHelpers
  simp only []
  have hc : (tdf.cols ++ ["__open__"]).filter (fun c => decide (c ∈ M.cols)) = tdf.cols := by
    rw [List.filter_append]
    have h1 : tdf.cols.filter (fun c => decide (c ∈ M.cols)) = tdf.cols :=
      List.filter_eq_self.mpr (fun c hcc => by rw [hcols] at hcc; simpa using hcc)
    have h2 : (["__open__"] : List String).filter (fun c => decide (c ∈ M.cols)) = [] := by
      simp [ho]
    rw [h1, h2, List.append_nil]
  have hr : (tdf.rows.map (fun r => r ++ [v])).map (fun r =>
      (((tdf.cols ++ ["__open__"]).zip r).filter (fun q => decide (q.1 ∈ M.cols))).map
        Prod.snd) = tdf.rows := by
    rw [List.map_map]
    conv_rhs => rw [(List.map_id tdf.rows).symm]
    apply List.map_congr_left
    intro r hrr
    simp only [Function.comp]
    rw [List.zip_append (by rw [hcols]; exact (hlen r hrr).symm)]
    rw [List.filter_append, List.map_append]
    have hz1 : (tdf.cols.zip r).filter (fun q => decide (q.1 ∈ M.cols)) = tdf.cols.zip r :=
      List.filter_eq_self.mpr (fun q hq => by
        have hmem := (List.of_mem_zip hq).1
        rw [hcols] at hmem
        simpa using hmem)
    have hz2 : ((["__open__"].zip [v]).filter (fun q => decide (q.1 ∈ M.cols))) = [] := by
      simp [ho]
    rw [hz1, hz2]
    simp only [List.map_nil, List.append_nil]
    exact List.map_snd_zip _ _ (by rw [hlen r hrr, hcols])
  rw [hc, hr]

theorem make_tables_view_fst (df : DataFrame) :
    (make_tables_view df).1 =
      setColAll (if "type" ∈ df.cols then
        filterRows df (fun r => cellEqS df.cols r "type" "table") else df) "__open__"
        (Val.str "Open") := rfl

/-- A full dataset with duplicate `(name, parent)` keys. -/
def dupFull : DataFrame :=
  ⟨["name", "parent", "description"],
   [[Val.str "a", Val.str "p", Val.str "1"],
    [Val.str "a", Val.str "p", Val.str "2"]]⟩

/-- An empty edited row set over the same schema. -/
def dupEdit : DataFrame := ⟨["name", "parent", "description"], []⟩

/-- Counterexample for C3 as stated: with duplicate composite keys
(`dupFull` has two rows keyed `("a","p")`), merging the empty edit set is
the identity, but re-deriving the Tables projection and merging it again
fans each projected row out over both duplicates, changing the dataset —
merge composed with re-projection is not idempotent. -/
theorem merge_reproject_idempotent_cex :
    mergeSave (mergeSave dupFull dupEdit (some "tables") none)
        ((make_tables_view (mergeSave dupFull dupEdit (some "tables") none)).1)
        (some "tables") none ≠
      mergeSave dupFull dupEdit (some "tables") none := by decide

/-- C3 (amended): let `M` be the dataset obtained by merging an edited row
set into a full dataset in Tables or Columns mode.  If `M` is well-formed,
contains no `__open__` field, and its rows' composite `(name, parent, type)`
keys are pairwise distinct (the spec's §3 uniqueness invariant) — and, in
Columns mode, every row's `type` cell is a non-null string when a `type`
column exists — then re-deriving the same-mode projection from `M` and
merging it back unchanged yields `M` exactly. -/
theorem merge_reproject_idempotent (full E M : DataFrame) (vm sel : Option String)
    (_hM : M = mergeSave full E vm sel)
    (hwf : M.WF) (ho : "__open__" ∉ M.cols) (huniq : UniqueKeys M) :
    (vm = some "tables" → mergeSave M (make_tables_view M).1 vm sel = M) ∧
    (vm = some "columns" → truthyOpt sel = true →
      ("type" ∈ M.cols → ∀ r ∈ M.rows, ∃ t, cellR M.cols r "type" = some (Val.str t)) →
      ∀ proj sch, make_columns_view M (sel.getD "") = some (proj, sch) →
        mergeSave M proj vm sel = M) := by
  constructor
  · intro hvm
    subst hvm
    unfold mergeSave
    rw [show ((some "tables" : Option String) == some "tables") = true from rfl]
    simp only [if_true]
    rw [make_tables_view_fst]
    have htsub : ∀ r ∈ (if "type" ∈ M.cols then
        filterRows M (fun q => cellEqS M.cols q "type" "table") else M).rows,
        r ∈ M.rows := by
      split
      · exact fun r hr => List.mem_of_mem_filter hr
      · exact fun r hr => hr
    have htcols : (if "type" ∈ M.cols then
        filterRows M (fun q => cellEqS M.cols q "type" "table") else M).cols = M.cols := by
      split <;> rfl
    rw [dropHelpers_setColAll M _ htcols (fun r hr => hwf.2 r (htsub r hr)) ho, htcols]
    apply foldl_fixed
    intro r0 hr0
    apply mergeTablesRow_self M hwf huniq r0 (htsub r0 hr0)
    intro htc
    rw [if_pos htc] at hr0
    simp only [filterRows] at hr0
    have hpred := @List.of_mem_filter _ (fun q => cellEqS M.cols q "type" "table")
      r0 M.rows hr0
    exact cellEqS_iff.mp hpred
  · intro hvm htr hnn proj sch hproj
    subst hvm
    have hp : "parent" ∈ M.cols := by
      by_contra hp
      unfold make_columns_view at hproj
      rw [if_neg hp] at hproj
      exact absurd hproj (by simp)
    unfold mergeSave
    rw [show ((some "columns" : Option String) == some "tables") = false from rfl,
      show ((some "columns" : Option String) == some "columns") = true from rfl, htr]
    simp only [Bool.false_eq_true, if_false, Bool.true_and, if_true]
    by_cases htc : "type" ∈ M.cols
    · have hprojeq : proj = filterRows M (fun q =>
          cellEqS M.cols q "parent" (sel.getD "") && !cellEqS M.cols q "type" "table") := by
        unfold make_columns_view at hproj
        rw [if_pos hp] at hproj
        simp only [htc, if_true, Option.some.injEq, Prod.mk.injEq] at hproj
        exact hproj.1.symm
      rw [hprojeq]
      have hdrop : dropHelpers M.cols (filterRows M (fun q =>
          cellEqS M.cols q "parent" (sel.getD "") && !cellEqS M.cols q "type" "table")) =
          filterRows M (fun q =>
            cellEqS M.cols q "parent" (sel.getD "") && !cellEqS M.cols q "type" "table") := by
        apply dropHelpers_self
        · intro r hr
          simp only [filterRows] at hr ⊢
          exact hwf.2 r (List.mem_of_mem_filter hr)
        · intro c hc
          simp only [filterRows] at hc
          exact hc
      rw [hdrop]
      simp only [filterRows]
      apply foldl_fixed
      intro r0 hr0
      have hr0M : r0 ∈ M.rows := List.mem_of_mem_filter hr0
      exact mergeColumnsRow_self M hwf huniq r0 hr0M (fun hcc => hnn hcc r0 hr0M)
    · have hprojeq : proj = filterRows M (fun q =>
          cellEqS M.cols q "parent" (sel.getD "")) := by
        unfold make_columns_view at hproj
        rw [if_pos hp] at hproj
        simp only [htc, if_false, Option.some.injEq, Prod.mk.injEq] at hproj
        exact hproj.1.symm
      rw [hprojeq]
      have hdrop : dropHelpers M.cols (filterRows M (fun q =>
          cellEqS M.cols q "parent" (sel.getD ""))) =
          filterRows M (fun q => cellEqS M.cols q "parent" (sel.getD "")) := by
        apply dropHelpers_self
        · intro r hr
          simp only [filterRows] at hr ⊢
          exact hwf.2 r (List.mem_of_mem_filter hr)
        · intro c hc
          simp only [filterRows] at hc
          exact hc
      rw [hdrop]
      simp only [filterRows]
      apply foldl_fixed
      intro r0 hr0
      have hr0M : r0 ∈ M.rows := List.mem_of_mem_filter hr0
      exact mergeColumnsRow_self M hwf huniq r0 hr0M (fun hcc => absurd hcc htc)

/-- An empty edited row set over the sample schema. -/
def emptyEdit : DataFrame := ⟨["name", "parent", "type", "description"], []⟩

/-- Witness for C3's amended theorem at a concrete merge result. -/
theorem merge_reproject_idempotent_witness :
    ((mergeSave sampleDF emptyEdit (some "tables") none).WF ∧
      "__open__" ∉ (mergeSave sampleDF emptyEdit (some "tables") none).cols ∧
      UniqueKeys (mergeSave sampleDF emptyEdit (some "tables") none)) ∧
    mergeSave (mergeSave sampleDF emptyEdit (some "tables") none)
        (make_tables_view (mergeSave sampleDF emptyEdit (some "tables") none)).1
        (some "tables") none =
      mergeSave sampleDF emptyEdit (some "tables") none :=
  ⟨⟨by decide, by decide, by decide⟩,
    (merge_reproject_idempotent sampleDF emptyEdit _ (some "tables") none rfl
      (by decide) (by decide) (by decide)).1 rfl⟩

end DataDict
